import Mathlib

/-!
# Flow wallet service: transaction service, listener status store, token templates

A shallow embedding of

* `transactions/service.go` (`Service.create`, `CreateSync`, `CreateAsync`, `List`, `Details`,
  `ValidateTransactionId`),
* `chain_events/store_gorm.go` (`GormStore.LockedStatus`),
* `templates/token.go` (`TokenFromEvent`),

together with the properties proved about them.

Conventions.  A Go `string` is a sequence of bytes, modelled as a list of natural numbers
(a real byte is `< 256`; no theorem below needs that bound as a hypothesis).  A Go `error`
is `Option GoError` (`none` is `nil`).  Collaborators that the service only calls through an
interface (ledger client, key manager, store, worker pool, address validator) are fields of an
environment record, and every call made on them is appended to a trace.
-/

namespace FlowWallet

/-! ## Strings and errors -/

/-- Go `string`: a sequence of bytes. -/
abbrev GoString := List Nat

/-- Bytes of an ASCII literal. -/
def ascii (s : String) : GoString := s.toList.map Char.toNat

/-- Error values that the service creates or inspects by dynamic type:
`*errors.RequestError`, `*errors.JobQueueFull`, and every other error value. -/
inductive GoError where
  | requestError (statusCode : Nat) (msg : String)
  | jobQueueFull (msg : String)
  | other (msg : String)
  deriving DecidableEq, Repr

/-- The `Error()` method: each of the wrappers returns the message of the wrapped error. -/
def GoError.Error : GoError → String
  | .requestError _ m => m
  | .jobQueueFull m => m
  | .other m => m

/-- The type assertion `err.(*errors.JobQueueFull)`. -/
def GoError.isJobQueueFull : GoError → Bool
  | .jobQueueFull _ => true
  | _ => false

/-- `http.StatusBadRequest`. -/
def StatusBadRequest : Nat := 400
/-- `http.StatusNotFound`. -/
def StatusNotFound : Nat := 404
/-- `http.StatusServiceUnavailable`. -/
def StatusServiceUnavailable : Nat := 503

/-! ## `encoding/hex` and `flow.Identifier` -/

/-- Errors of `hex.Decode`: `InvalidByteError` and `ErrLength`. -/
inductive HexError where
  | invalidByte (b : Nat)
  | errLength
  deriving DecidableEq, Repr

/-- `hex.fromHexChar`: the value of one hexadecimal digit, in either case. -/
def fromHexChar (c : Nat) : Option Nat :=
  if 48 ≤ c ∧ c ≤ 57 then some (c - 48)
  else if 97 ≤ c ∧ c ≤ 102 then some (c - 97 + 10)
  else if 65 ≤ c ∧ c ≤ 70 then some (c - 65 + 10)
  else none

/-- `hex.DecodeString`: two digits per byte, `(a << 4) | b`; an invalid digit is reported
before an odd length. -/
def DecodeString : GoString → Except HexError (List Nat)
  | [] => .ok []
  | [p] =>
    match fromHexChar p with
    | none => .error (.invalidByte p)
    | some _ => .error .errLength
  | p :: q :: rest =>
    match fromHexChar p with
    | none => .error (.invalidByte p)
    | some a =>
      match fromHexChar q with
      | none => .error (.invalidByte q)
      | some b =>
        match DecodeString rest with
        | .ok bs => .ok (((a <<< 4) ||| b) :: bs)
        | .error e => .error e

/-- `hex.hextable = "0123456789abcdef"`. -/
def hextable : List Nat :=
  [48, 49, 50, 51, 52, 53, 54, 55, 56, 57, 97, 98, 99, 100, 101, 102]

/-- `hex.EncodeToString`: `hextable[v>>4]`, `hextable[v&0x0f]` for every byte `v`. -/
def EncodeToString : List Nat → GoString
  | [] => []
  | v :: vs => hextable.getD (v >>> 4) 0 :: hextable.getD (v &&& 15) 0 :: EncodeToString vs

/-- `flow.BytesToID`: `copy` into a zeroed 32-byte array (truncates or right-pads). -/
def BytesToID (b : List Nat) : List Nat :=
  b.take 32 ++ List.replicate (32 - b.length) 0

/-- `flow.Identifier.Hex`. -/
def Hex (i : List Nat) : GoString := EncodeToString i

/-- The error value built at the top of `ValidateTransactionId`. -/
def invalidErr : GoError :=
  .requestError StatusBadRequest "not a valid transaction id"

/-- `transactions.ValidateTransactionId` (service.go, lines 201-214). -/
def ValidateTransactionId (id : GoString) : Option GoError :=
  match DecodeString id with
  | .error _ => some invalidErr
  | .ok b => if id ≠ Hex (BytesToID b) then some invalidErr else none

/-- A lowercase hexadecimal digit: `0`-`9` or `a`-`f`. -/
def isLowerHexDigit (c : Nat) : Prop := (48 ≤ c ∧ c ≤ 57) ∨ (97 ≤ c ∧ c ≤ 102)

instance : DecidablePred isLowerHexDigit := fun c => by
  unfold isLowerHexDigit; infer_instance

/-- Canonical encoding of a 32-byte identifier: exactly 64 lowercase hexadecimal digits. -/
def isCanonicalId (id : GoString) : Prop := id.length = 64 ∧ ∀ c ∈ id, isLowerHexDigit c

instance : DecidablePred isCanonicalId := fun id => by
  unfold isCanonicalId; infer_instance

/-! ## `transactions.Service` -/

/-- `flow.ChainID` (a string type). -/
abbrev ChainID := GoString

/-- `flow.Identifier` of the reference block. -/
abbrev BlockId := List Nat

/-- `keys.Authorizer`: an opaque signing capability, identified by a handle. -/
structure Authorizer where
  handle : Nat
  deriving DecidableEq, Repr

/-- `TransactionArg`: an opaque script argument. -/
abbrev TransactionArg := GoString

/-- `flow.Transaction` as far as the service uses it: the value of `ID()`. -/
structure FlowTransaction where
  ID : List Nat
  deriving DecidableEq, Repr

/-- Modelled from the spec: the `Transaction` record (declared in `transactions/transaction.go`,
which is not among the sources): payer address, assigned network transaction identifier, and the
built ledger transaction `tx`. -/
structure Transaction where
  PayerAddress : GoString
  TransactionId : GoString
  tx : FlowTransaction
  deriving DecidableEq, Repr

/-- Modelled from the spec: `EmptyTransaction`, the zero `Transaction` value. -/
def EmptyTransaction : Transaction := ⟨[], [], ⟨[]⟩⟩

/-- `datastore.ListOptions`. -/
structure ListOptions where
  Limit : Int
  Offset : Int
  deriving DecidableEq, Repr

/-- `jobs.Job`: the handle returned by the worker pool. -/
structure Job where
  ID : Nat
  deriving DecidableEq, Repr

/-- A call made on a collaborator (ledger client, key manager, transaction builder, store,
worker pool), with its arguments. -/
inductive Call where
  | LatestBlockId
  | UserAuthorizer (address : GoString)
  | New (id : BlockId) (code : GoString) (args : List TransactionArg)
      (proposer payer : Authorizer) (aa : List Authorizer)
  | Send (t : Transaction)
  | InsertTransaction (t : Transaction)
  | Wait (t : Transaction)
  | UpdateTransaction (t : Transaction)
  | AddJob
  | Transactions (address : GoString) (o : ListOptions)
  | Transaction (address transactionId : GoString)
  deriving DecidableEq, Repr

/-- The call is one of the four `Store` methods. -/
def Call.isStoreCall : Call → Bool
  | .InsertTransaction _ => true
  | .UpdateTransaction _ => true
  | .Transactions _ _ => true
  | .Transaction _ _ => true
  | _ => false

/-- The call is `Store.InsertTransaction`. -/
def Call.isInsert : Call → Bool
  | .InsertTransaction _ => true
  | _ => false

/-- The call is `Store.UpdateTransaction`. -/
def Call.isUpdate : Call → Bool
  | .UpdateTransaction _ => true
  | _ => false

/-- The collaborators of `Service` (fields `db`, `km`, `fc`, `wp`, `cfg` and the package-level
helpers it calls), none of which is among the sources: each is a parameter giving the outcome
of the call.  Methods that take `*Transaction` return the transaction as they leave it together
with their error.  `AddJob` is the outcome of `wp.AddJob`: an error (the work is rejected) or
the handle of the accepted job. -/
structure Env where
  ChainId : ChainID
  ValidateAddress : GoString → ChainID → Option GoError
  LatestBlockId : Except GoError BlockId
  UserAuthorizer : GoString → Except GoError Authorizer
  New : BlockId → GoString → List TransactionArg → Authorizer → Authorizer →
    List Authorizer → Except GoError Transaction
  Send : Transaction → Transaction × Option GoError
  Wait : Transaction → Transaction × Option GoError
  InsertTransaction : Transaction → Transaction × Option GoError
  UpdateTransaction : Transaction → Transaction × Option GoError
  Transactions : GoString → ListOptions → List Transaction × Option GoError
  Transaction : GoString → GoString → Transaction × Option GoError
  ParseListOptions : Int → Int → ListOptions
  AddJob : Except GoError Job

/-- `strings.HasPrefix`. -/
def HasPrefix : GoString → GoString → Bool
  | _, [] => true
  | [], _ :: _ => false
  | c :: cs, p :: ps => c == p && HasPrefix cs ps

/-- `strings.Contains(s, substr)`: `substr` starts at some position of `s`. -/
def Contains : GoString → GoString → Bool
  | [], substr => HasPrefix [] substr
  | c :: cs, substr => HasPrefix (c :: cs) substr || Contains cs substr

/-- The marker `": AuthAccount"`. -/
def authAccountMarker : GoString :=
  [58, 32, 65, 117, 116, 104, 65, 99, 99, 111, 117, 110, 116]

/-- Result of `Service.create`: the returned transaction, the returned error, and the calls
made, in order. -/
structure CreateResult where
  t : Transaction
  err : Option GoError
  calls : List Call
  deriving DecidableEq, Repr

/-- `Service.create` (service.go, lines 41-89). -/
def Service.create (s : Env) (address code : GoString) (args : List TransactionArg) :
    CreateResult :=
  match s.LatestBlockId with
  | .error err => ⟨EmptyTransaction, some err, [.LatestBlockId]⟩
  | .ok id =>
    match s.UserAuthorizer address with
    | .error err => ⟨EmptyTransaction, some err, [.LatestBlockId, .UserAuthorizer address]⟩
    | .ok a =>
      let aa : List Authorizer := if Contains code authAccountMarker then [] ++ [a] else []
      let c₃ : List Call := [.LatestBlockId, .UserAuthorizer address, .New id code args a a aa]
      match s.New id code args a a aa with
      | .error err => ⟨EmptyTransaction, some err, c₃⟩
      | .ok t =>
        match s.Send t with
        | (t₁, some err) => ⟨t₁, some err, c₃ ++ [.Send t]⟩
        | (t₁, none) =>
          let t₂ : Transaction := { t₁ with TransactionId := Hex t₁.tx.ID }
          match s.InsertTransaction t₂ with
          | (t₃, some err) => ⟨t₃, some err, c₃ ++ [.Send t, .InsertTransaction t₂]⟩
          | (t₃, none) =>
            match s.Wait t₃ with
            | (t₄, some err) =>
              ⟨t₄, some err, c₃ ++ [.Send t, .InsertTransaction t₂, .Wait t₃]⟩
            | (t₄, none) =>
              let (t₅, err) := s.UpdateTransaction t₄
              ⟨t₅, err,
                c₃ ++ [.Send t, .InsertTransaction t₂, .Wait t₃, .UpdateTransaction t₄]⟩

/-- The 503 error that replaces a `JobQueueFull` error of `AddJob`. -/
def capacityErr : GoError :=
  .requestError StatusServiceUnavailable "max capacity reached, try again later"

/-- Result of `CreateSync`: the returned `*Transaction` (`none` is `nil`), the returned error,
and the calls made. -/
structure SyncResult where
  result : Option Transaction
  err : Option GoError
  calls : List Call
  deriving DecidableEq, Repr

/-- `Service.CreateSync` (service.go, lines 91-129).  The worker pool follows its contract:
rejected work is not run; accepted work is run once by a worker, which sets `result`,
`createErr` and `done`, and the polling loop then ends. -/
def Service.CreateSync (s : Env) (code : GoString) (args : List TransactionArg)
    (address : GoString) : SyncResult :=
  match s.ValidateAddress address s.ChainId with
  | some err => ⟨none, some err, []⟩
  | none =>
    match s.AddJob with
    | .error jobErr =>
      let jobErr := if jobErr.isJobQueueFull then capacityErr else jobErr
      ⟨none, some jobErr, [.AddJob]⟩
    | .ok _ =>
      let r := Service.create s address code args
      ⟨some r.t, r.err, .AddJob :: r.calls⟩

/-- Result of `CreateAsync`: the returned `*jobs.Job`, the returned error, the calls made before
returning, and the work handed to the pool (what the closure will do when a worker runs it). -/
structure AsyncResult where
  job : Option Job
  err : Option GoError
  calls : List Call
  work : Option CreateResult
  deriving DecidableEq, Repr

/-- `Service.CreateAsync` (service.go, lines 131-158). -/
def Service.CreateAsync (s : Env) (code : GoString) (args : List TransactionArg)
    (address : GoString) : AsyncResult :=
  match s.ValidateAddress address s.ChainId with
  | some err => ⟨none, some err, [], none⟩
  | none =>
    match s.AddJob with
    | .error err =>
      let err := if err.isJobQueueFull then capacityErr else err
      ⟨none, some err, [.AddJob], none⟩
    | .ok job => ⟨some job, none, [.AddJob], some (Service.create s address code args)⟩

/-- Result of `List`. -/
structure ListResult where
  result : List Transaction
  err : Option GoError
  calls : List Call
  deriving DecidableEq, Repr

/-- `Service.List` (service.go, lines 160-171). -/
def Service.List (s : Env) (address : GoString) (limit offset : Int) : ListResult :=
  match s.ValidateAddress address s.ChainId with
  | some err => ⟨[], some err, []⟩
  | none =>
    let o := s.ParseListOptions limit offset
    let r := s.Transactions address o
    ⟨r.1, r.2, [.Transactions address o]⟩

/-- The 404 error that replaces the store's "record not found". -/
def notFoundErr : GoError := .requestError StatusNotFound "transaction not found"

/-- Result of `Details`. -/
structure DetailsResult where
  result : Transaction
  err : Option GoError
  calls : List Call
  deriving DecidableEq, Repr

/-- `Service.Details` (service.go, lines 173-199). -/
def Service.Details (s : Env) (address transactionId : GoString) : DetailsResult :=
  match s.ValidateAddress address s.ChainId with
  | some err => ⟨EmptyTransaction, some err, []⟩
  | none =>
    match ValidateTransactionId transactionId with
    | some err => ⟨EmptyTransaction, some err, []⟩
    | none =>
      let r := s.Transaction address transactionId
      match r.2 with
      | some err =>
        if err.Error = "record not found" then
          ⟨r.1, some notFoundErr, [.Transaction address transactionId]⟩
        else ⟨r.1, some err, [.Transaction address transactionId]⟩
      | none => ⟨r.1, none, [.Transaction address transactionId]⟩

/-! ## `chain_events.GormStore` -/

/-- Modelled from the spec: `ListenerStatus` (declared in `chain_events/listener.go`, which is
not among the sources): the single row holding the latest-processed marker. -/
structure ListenerStatus where
  LatestHeight : Nat
  deriving DecidableEq, Repr

/-- The `ListenerStatus` table: `none` while the row has not been created. -/
abbrev StatusTable := Option ListenerStatus

/-- Steps executed inside `LockedStatus`, with the status they receive, and how the
transaction ended. -/
inductive DbStep where
  | FirstOrCreate
  | fn (status : ListenerStatus)
  | Save (status : ListenerStatus)
  | Commit
  | Rollback
  deriving DecidableEq, Repr

/-- The database session as `LockedStatus` sees it: `lock` is the error of the
`FOR UPDATE NOWAIT` fetch-or-create statement (lock held elsewhere, or any other failure),
`save` the error of `Save` for a given status. -/
structure Gorm where
  lock : Option GoError
  save : ListenerStatus → Option GoError

/-- Result of `LockedStatus`: the table afterwards, the returned error, the steps executed. -/
structure LockedResult where
  db : StatusTable
  err : Option GoError
  steps : List DbStep
  deriving DecidableEq, Repr

/-- `tx.Clauses(clause.Locking ...).FirstOrCreate(&status)` on the zero `status`: fails with
the session's lock error, otherwise loads the existing row or creates the zero row. -/
def FirstOrCreate (g : Gorm) (tx : StatusTable) : StatusTable × ListenerStatus × Option GoError :=
  match g.lock with
  | some err => (tx, ⟨0⟩, some err)
  | none =>
    match tx with
    | some row => (tx, row, none)
    | none => (some ⟨0⟩, ⟨0⟩, none)

/-- `tx.Save(&status)`: writes the row, or fails. -/
def Save (g : Gorm) (tx : StatusTable) (status : ListenerStatus) : StatusTable × Option GoError :=
  match g.save status with
  | some err => (tx, some err)
  | none => (some status, none)

/-- `gorm.DB.Transaction(fc)` by its documented contract: `fc` runs on the transaction's view of
the table; an error returned by `fc` rolls back (the table is as before) and is returned, `nil`
commits the view.  Failures of the driver to begin or to commit are not part of the model. -/
def gormTransaction (db : StatusTable)
    (fc : StatusTable → StatusTable × Option GoError × List DbStep) : LockedResult :=
  match fc db with
  | (tx, none, steps) => ⟨tx, none, steps ++ [.Commit]⟩
  | (_, some err, steps) => ⟨db, some err, steps ++ [.Rollback]⟩

/-- `GormStore.LockedStatus` (store_gorm.go, lines 17-38).  `fn` receives `*ListenerStatus`:
it returns the status as it leaves it, and its error. -/
def GormStore.LockedStatus (g : Gorm) (db : StatusTable)
    (fn : ListenerStatus → ListenerStatus × Option GoError) : LockedResult :=
  gormTransaction db fun tx =>
    match FirstOrCreate g tx with
    | (tx, _, some err) => (tx, some err, [.FirstOrCreate])
    | (tx, status, none) =>
      match fn status with
      | (_, some err) => (tx, some err, [.FirstOrCreate, .fn status])
      | (status₁, none) =>
        match Save g tx status₁ with
        | (tx, some err) => (tx, some err, [.FirstOrCreate, .fn status, .Save status₁])
        | (tx, none) => (tx, none, [.FirstOrCreate, .fn status, .Save status₁])

/-! ## `templates.TokenFromEvent` -/

/-- `templates.Token`. -/
structure Token where
  Name : GoString
  Address : GoString
  deriving DecidableEq, Repr

/-- `flow.Event` as far as `TokenFromEvent` uses it: the field `Type` (a reserved word here,
hence `Type_`). -/
structure Event where
  Type_ : GoString
  deriving DecidableEq, Repr

/-- A Go run-time panic: index out of range. -/
inductive Panic where
  | indexOutOfRange (index length : Nat)
  deriving DecidableEq, Repr

/-- `strings.Split(s, sep)` for a one-byte separator, as at its call site (`"."`): the
segments of `s` between occurrences of `sep`; always at least one segment. -/
def Split : GoString → Nat → List GoString
  | [], _ => [[]]
  | c :: cs, sep =>
    if c = sep then [] :: Split cs sep
    else
      match Split cs sep with
      | [] => [[c]]
      | seg :: segs => (c :: seg) :: segs

/-- `templates.TokenFromEvent` (token.go, lines 48-57).  `ValidateAddress` is
`flow_helpers.ValidateAddress`; `46` is the byte `.`. -/
def TokenFromEvent (ValidateAddress : GoString → ChainID → Except GoError GoString)
    (e : Event) (chainId : ChainID) : Except Panic (Token × Option GoError) :=
  let ss := Split e.Type_ 46
  match ss[1]? with
  | none => .error (.indexOutOfRange 1 ss.length)
  | some s₁ =>
    match ValidateAddress s₁ chainId with
    | .error err => .ok (⟨[], []⟩, some err)
    | .ok a =>
      match ss[2]? with
      | none => .error (.indexOutOfRange 2 ss.length)
      | some s₂ => .ok (⟨s₂, a⟩, none)

/-! ## Concrete environments -/

/-- A transaction as `New` might build it: no id assigned yet, ledger id of 32 bytes `0xab`. -/
def builtTx : Transaction := ⟨[48, 120, 48, 49], [], ⟨List.replicate 32 171⟩⟩

/-- An environment in which every collaborator succeeds; the address validator rejects
exactly the empty address, and the store finds every transaction. -/
def okEnv : Env where
  ChainId := ascii "flow-emulator"
  ValidateAddress := fun a _ => if a = [] then some (.other "not a valid address") else none
  LatestBlockId := .ok (List.replicate 32 1)
  UserAuthorizer := fun _ => .ok ⟨7⟩
  New := fun _ _ _ _ _ _ => .ok builtTx
  Send := fun t => (t, none)
  Wait := fun t => (t, none)
  InsertTransaction := fun t => (t, none)
  UpdateTransaction := fun t => (t, none)
  Transactions := fun _ _ => ([builtTx], none)
  Transaction := fun _ _ => (builtTx, none)
  ParseListOptions := fun l o => ⟨l, o⟩
  AddJob := .ok ⟨1⟩

/-- As `okEnv`, but the ledger rejects the transaction on `Send`. -/
def sendFailsEnv : Env :=
  { okEnv with Send := fun t => (t, some (.other "send failed")) }

/-- As `okEnv`, but waiting for the seal fails. -/
def waitFailsEnv : Env :=
  { okEnv with Wait := fun t => (t, some (.other "wait failed")) }

/-- As `okEnv`, but the worker pool's queue is full. -/
def queueFullEnv : Env :=
  { okEnv with AddJob := .error (.jobQueueFull "queue full") }

/-- As `okEnv`, but the store does not find the transaction. -/
def notFoundEnv : Env :=
  { okEnv with Transaction := fun _ _ => (EmptyTransaction, some (.other "record not found")) }

/-- An address that `okEnv` accepts. -/
def someAddress : GoString := [48, 120, 48, 49]

/-! ## Properties -/

/-! ### `ValidateTransactionId` -/

theorem nibbles_of_byte (a b : Nat) (ha : a < 16) (hb : b < 16) :
    ((a <<< 4) ||| b) >>> 4 = a ∧ ((a <<< 4) ||| b) &&& 15 = b := by
  interval_cases a <;> interval_cases b <;> decide

theorem fromHexChar_lower (c : Nat) (h : isLowerHexDigit c) :
    ∃ a, a < 16 ∧ fromHexChar c = some a ∧ hextable.getD a 0 = c := by
  rcases h with ⟨h1, h2⟩ | ⟨h1, h2⟩ <;> interval_cases c <;> decide

theorem fromHexChar_lt (c a : Nat) (h : fromHexChar c = some a) : a < 16 := by
  unfold fromHexChar at h
  split_ifs at h <;> simp at h <;> omega

theorem hextable_lower (a : Nat) (h : a < 16) : isLowerHexDigit (hextable.getD a 0) := by
  interval_cases a <;> decide

theorem byte_of_nibbles_lt (a b : Nat) (ha : a < 16) (hb : b < 16) :
    ((a <<< 4) ||| b) < 256 := by
  interval_cases a <;> interval_cases b <;> decide

theorem EncodeToString_length (bs : List Nat) :
    (EncodeToString bs).length = 2 * bs.length := by
  induction bs with
  | nil => rfl
  | cons v vs ih => simp [EncodeToString, ih]; omega

theorem EncodeToString_lower (bs : List Nat) (hb : ∀ v ∈ bs, v < 256) :
    ∀ c ∈ EncodeToString bs, isLowerHexDigit c := by
  induction bs with
  | nil => intro c hc; simp [EncodeToString] at hc
  | cons v vs ih =>
    intro c hc
    have hv : v < 256 := hb v (List.mem_cons_self _ _)
    simp only [EncodeToString, List.mem_cons] at hc
    rcases hc with rfl | rfl | hc
    · apply hextable_lower
      rw [Nat.shiftRight_eq_div_pow]; omega
    · apply hextable_lower
      have := @Nat.and_le_right v 15
      omega
    · exact ih (fun w hw => hb w (List.mem_cons_of_mem _ hw)) c hc

theorem DecodeString_bytes : ∀ (n : Nat) (s : GoString) (b : List Nat), s.length ≤ n →
    DecodeString s = .ok b → s.length = 2 * b.length ∧ ∀ v ∈ b, v < 256 := by
  intro n
  induction n with
  | zero =>
    intro s b hn h
    have hs : s = [] := List.length_eq_zero.mp (by omega)
    subst hs
    simp [DecodeString] at h
    subst h
    simp
  | succ n ih =>
    intro s b hn h
    match s, h, hn with
    | [], h, _ =>
      simp [DecodeString] at h
      subst h
      simp
    | [p], h, _ =>
      simp only [DecodeString] at h
      split at h <;> simp at h
    | p :: q :: rest, h, hn =>
      simp only [DecodeString] at h
      split at h
      · simp at h
      · rename_i a ha
        split at h
        · simp at h
        · rename_i c hc
          split at h
          · rename_i bs hbs
            simp at h
            subst h
            have hlen : rest.length ≤ n := by simp at hn; omega
            obtain ⟨h1, h2⟩ := ih rest bs hlen hbs
            refine ⟨by simp [h1]; omega, ?_⟩
            intro v hv
            rcases List.mem_cons.mp hv with rfl | hv
            · exact byte_of_nibbles_lt a c (fromHexChar_lt _ _ ha) (fromHexChar_lt _ _ hc)
            · exact h2 v hv
          · simp at h

theorem DecodeString_lower : ∀ (n : Nat) (s : GoString), s.length = 2 * n →
    (∀ c ∈ s, isLowerHexDigit c) →
    ∃ b, DecodeString s = .ok b ∧ b.length = n ∧ EncodeToString b = s := by
  intro n
  induction n with
  | zero =>
    intro s hn _
    have hs : s = [] := List.length_eq_zero.mp (by omega)
    subst hs
    exact ⟨[], rfl, rfl, rfl⟩
  | succ n ih =>
    intro s hn hl
    match s, hn, hl with
    | [], hn, _ => simp at hn
    | [p], hn, _ => simp at hn; omega
    | p :: q :: rest, hn, hl =>
      obtain ⟨a, ha, hpa, hta⟩ := fromHexChar_lower p (hl p (by simp))
      obtain ⟨c, hc, hqc, htc⟩ := fromHexChar_lower q (hl q (by simp))
      obtain ⟨bs, hbs, hlen, henc⟩ := ih rest (by simp at hn; omega)
        (fun x hx => hl x (by simp [hx]))
      refine ⟨((a <<< 4) ||| c) :: bs, ?_, by simp [hlen], ?_⟩
      · simp [DecodeString, hpa, hqc, hbs]
      · obtain ⟨e1, e2⟩ := nibbles_of_byte a c ha hc
        simp only [EncodeToString, e1, e2, hta, htc, henc]

theorem BytesToID_length (b : List Nat) : (BytesToID b).length = 32 := by
  simp [BytesToID]; omega

theorem BytesToID_bytes (b : List Nat) (hb : ∀ v ∈ b, v < 256) :
    ∀ v ∈ BytesToID b, v < 256 := by
  intro v hv
  simp only [BytesToID, List.mem_append] at hv
  rcases hv with hv | hv
  · exact hb v (List.mem_of_mem_take hv)
  · have := List.eq_of_mem_replicate hv
    omega

theorem BytesToID_of_length (b : List Nat) (hb : b.length = 32) : BytesToID b = b := by
  simp [BytesToID, hb, List.take_of_length_le]

theorem ValidateTransactionId_eq_none_iff (id : GoString) :
    ValidateTransactionId id = none ↔
      ∃ b, DecodeString id = .ok b ∧ Hex (BytesToID b) = id := by
  unfold ValidateTransactionId
  cases h : DecodeString id with
  | error e => simp
  | ok b =>
    by_cases hid : id = Hex (BytesToID b)
    · simp [← hid]
    · simp only [ne_eq, hid, not_false_eq_true, ↓reduceIte, Except.ok.injEq, exists_eq_left']
      constructor
      · intro h'; cases h'
      · intro h'; exact absurd h'.symm hid

theorem canonical_iff_roundtrip (id : GoString) :
    isCanonicalId id ↔ ∃ b, DecodeString id = .ok b ∧ Hex (BytesToID b) = id := by
  constructor
  · rintro ⟨hlen, hlow⟩
    obtain ⟨b, hb, hbl, henc⟩ := DecodeString_lower 32 id (by omega) hlow
    exact ⟨b, hb, by rw [BytesToID_of_length b hbl]; exact henc⟩
  · rintro ⟨b, hb, henc⟩
    obtain ⟨_, hbytes⟩ := DecodeString_bytes id.length id b le_rfl hb
    constructor
    · rw [← henc, Hex, EncodeToString_length, BytesToID_length]
    · rw [← henc]
      exact EncodeToString_lower _ (BytesToID_bytes b hbytes)

/-- C1: `ValidateTransactionId id` is `nil` exactly when `id` consists of exactly 64 lowercase
hexadecimal characters, equivalently exactly when hex-decoding `id` succeeds and re-encoding the
decoded bytes as a 32-byte identifier gives back `id`; every other string is rejected with the
400 `RequestError` "not a valid transaction id". -/
theorem ValidateTransactionId_canonical (id : GoString) :
    (ValidateTransactionId id = none ↔ (id.length = 64 ∧ ∀ c ∈ id, isLowerHexDigit c)) ∧
    (ValidateTransactionId id = none ↔
      ∃ b, DecodeString id = .ok b ∧ Hex (BytesToID b) = id) ∧
    ValidateTransactionId id =
      if isCanonicalId id then none
      else some (GoError.requestError 400 "not a valid transaction id") := by
  have h1 := ValidateTransactionId_eq_none_iff id
  have h2 := canonical_iff_roundtrip id
  refine ⟨h1.trans h2.symm, h1, ?_⟩
  by_cases hc : isCanonicalId id
  · simp only [hc, ↓reduceIte]
    exact h1.mpr (h2.mp hc)
  · simp only [hc, ↓reduceIte]
    have hne : ValidateTransactionId id ≠ none := fun h => hc (h2.mpr (h1.mp h))
    unfold ValidateTransactionId at hne ⊢
    cases h : DecodeString id with
    | error e => rfl
    | ok b =>
      rw [h] at hne
      by_cases hid : id ≠ Hex (BytesToID b)
      · show (if id ≠ Hex (BytesToID b) then some invalidErr else none) = _
        rw [if_pos hid]; rfl
      · simp [hid] at hne

/-- Sample verdicts of `ValidateTransactionId`: 64 lowercase digits pass; upper-case digits,
the empty string, 62 digits, 66 digits, an odd length and a non-hex byte are rejected. -/
theorem ValidateTransactionId_samples :
    ValidateTransactionId (List.replicate 64 97) = none ∧
    ValidateTransactionId (List.replicate 64 65) = some invalidErr ∧
    ValidateTransactionId [] = some invalidErr ∧
    ValidateTransactionId (List.replicate 62 97) = some invalidErr ∧
    ValidateTransactionId (List.replicate 66 97) = some invalidErr ∧
    ValidateTransactionId (List.replicate 63 97) = some invalidErr ∧
    ValidateTransactionId (List.replicate 63 97 ++ [103]) = some invalidErr := by
  decide

/-! ### `Service.create` -/

/-- C2: when the ledger submission does not succeed (the latest-block-id fetch, the authorizer
resolution, the construction by `New`, or `Send` fails with error `e`), `create` returns exactly
`e`, makes no `InsertTransaction` and no `UpdateTransaction` call, and assigns no network
transaction identifier: the transaction returned is `EmptyTransaction`, or the one `Send` was
called on exactly as `Send` left it. -/
theorem create_submit_failure (s : Env) (address code : GoString) (args : List TransactionArg)
    (e : GoError)
    (h : s.LatestBlockId = .error e ∨
      ∃ id, s.LatestBlockId = .ok id ∧
        (s.UserAuthorizer address = .error e ∨
          ∃ a, s.UserAuthorizer address = .ok a ∧
            (s.New id code args a a (if Contains code authAccountMarker then [a] else [])
                = .error e ∨
              ∃ t, s.New id code args a a (if Contains code authAccountMarker then [a] else [])
                  = .ok t ∧ (s.Send t).2 = some e))) :
    (Service.create s address code args).err = some e ∧
    (∀ c ∈ (Service.create s address code args).calls,
      c.isInsert = false ∧ c.isUpdate = false) ∧
    ((Service.create s address code args).t = EmptyTransaction ∨
      ∃ t, Call.Send t ∈ (Service.create s address code args).calls ∧
        (Service.create s address code args).t = (s.Send t).1) := by
  rcases h with h | ⟨id, hb, h⟩
  · simp [Service.create, h, Call.isInsert, Call.isUpdate]
  · rcases h with h | ⟨a, ha, h⟩
    · simp [Service.create, hb, h, Call.isInsert, Call.isUpdate]
    · rcases h with h | ⟨t, hn, hs⟩
      · simp [Service.create, hb, ha, h, Call.isInsert, Call.isUpdate]
      · have hs' : s.Send t = ((s.Send t).1, some e) := by rw [← hs]
        simp only [Service.create, hb, ha, List.nil_append, hn]
        rw [hs']
        simp [Call.isInsert, Call.isUpdate]

/-- Instance of C2: `Send` fails. -/
theorem create_submit_failure_witness :
    (Service.create sendFailsEnv someAddress [] []).err = some (.other "send failed") ∧
    (∀ c ∈ (Service.create sendFailsEnv someAddress [] []).calls,
      c.isInsert = false ∧ c.isUpdate = false) ∧
    ((Service.create sendFailsEnv someAddress [] []).t = EmptyTransaction ∨
      ∃ t, Call.Send t ∈ (Service.create sendFailsEnv someAddress [] []).calls ∧
        (Service.create sendFailsEnv someAddress [] []).t = (sendFailsEnv.Send t).1) :=
  create_submit_failure sendFailsEnv someAddress [] [] (.other "send failed")
    (Or.inr ⟨List.replicate 32 1, rfl, Or.inr ⟨⟨7⟩, rfl, Or.inr ⟨builtTx, rfl, rfl⟩⟩⟩)

/-- C3: when `Send` and `InsertTransaction` succeed and `Wait` fails with `e`, the calls made
are exactly block id, authorizer, `New`, `Send`, one `InsertTransaction`, `Wait`, in this order;
the single inserted record has `TransactionId` equal to the hex form of the submitted
transaction's id and is the transaction as it was before `Wait`; the error returned is `e`. -/
theorem create_wait_failure (s : Env) (address code : GoString) (args : List TransactionArg)
    (id : BlockId) (a : Authorizer) (t t₁ t₃ t₄ : Transaction) (e : GoError)
    (hb : s.LatestBlockId = .ok id) (ha : s.UserAuthorizer address = .ok a)
    (hn : s.New id code args a a (if Contains code authAccountMarker then [a] else []) = .ok t)
    (hs : s.Send t = (t₁, none))
    (hi : s.InsertTransaction { t₁ with TransactionId := Hex t₁.tx.ID } = (t₃, none))
    (hw : s.Wait t₃ = (t₄, some e)) :
    (Service.create s address code args).err = some e ∧
    (Service.create s address code args).calls =
      [.LatestBlockId, .UserAuthorizer address,
       .New id code args a a (if Contains code authAccountMarker then [a] else []),
       .Send t, .InsertTransaction { t₁ with TransactionId := Hex t₁.tx.ID }, .Wait t₃] ∧
    (Service.create s address code args).calls.filter Call.isInsert =
      [.InsertTransaction ⟨t₁.PayerAddress, Hex t₁.tx.ID, t₁.tx⟩] ∧
    (Service.create s address code args).calls.countP Call.isUpdate = 0 := by
  simp only [Service.create, hb, ha, List.nil_append, hn, hs, hi, hw]
  simp [Call.isInsert, Call.isUpdate, List.filter, List.countP, List.countP.go]

/-- Instance of C3: `Wait` fails after a successful insert. -/
theorem create_wait_failure_witness :
    (Service.create waitFailsEnv someAddress [] []).err = some (.other "wait failed") ∧
    (Service.create waitFailsEnv someAddress [] []).calls =
      [.LatestBlockId, .UserAuthorizer someAddress,
       .New (List.replicate 32 1) [] [] ⟨7⟩ ⟨7⟩
         (if Contains [] authAccountMarker then [⟨7⟩] else []),
       .Send builtTx,
       .InsertTransaction { builtTx with TransactionId := Hex builtTx.tx.ID },
       .Wait { builtTx with TransactionId := Hex builtTx.tx.ID }] ∧
    (Service.create waitFailsEnv someAddress [] []).calls.filter Call.isInsert =
      [.InsertTransaction ⟨builtTx.PayerAddress, Hex builtTx.tx.ID, builtTx.tx⟩] ∧
    (Service.create waitFailsEnv someAddress [] []).calls.countP Call.isUpdate = 0 :=
  create_wait_failure waitFailsEnv someAddress [] [] (List.replicate 32 1) ⟨7⟩ builtTx builtTx
    { builtTx with TransactionId := Hex builtTx.tx.ID }
    { builtTx with TransactionId := Hex builtTx.tx.ID } (.other "wait failed")
    rfl rfl rfl rfl rfl rfl

/-- C4 fails as stated: in `waitFailsEnv` the run reaches `Wait` (`Send` and
`InsertTransaction` succeeded), `Wait` fails, and `UpdateTransaction` is never called. -/
theorem wait_failure_skips_update :
    (Service.create waitFailsEnv someAddress [] []).calls.any
      (fun c => c == Call.Wait { builtTx with TransactionId := Hex builtTx.tx.ID }) = true ∧
    (Service.create waitFailsEnv someAddress [] []).err = some (.other "wait failed") ∧
    (Service.create waitFailsEnv someAddress [] []).calls.countP Call.isUpdate = 0 := by
  decide

/-- C4, amended: in a run that reaches `Wait` (`Send` and `InsertTransaction` succeeded),
if `Wait` succeeds then `UpdateTransaction` is called exactly once, as the last call, right
after `Wait`, on the transaction `Wait` left, and `create` returns its error; if `Wait` fails
then `UpdateTransaction` is not called and the error returned is the `Wait` failure. -/
theorem create_update_after_wait (s : Env) (address code : GoString)
    (args : List TransactionArg) (id : BlockId) (a : Authorizer) (t t₁ t₃ t₄ : Transaction)
    (we : Option GoError)
    (hb : s.LatestBlockId = .ok id) (ha : s.UserAuthorizer address = .ok a)
    (hn : s.New id code args a a (if Contains code authAccountMarker then [a] else []) = .ok t)
    (hs : s.Send t = (t₁, none))
    (hi : s.InsertTransaction { t₁ with TransactionId := Hex t₁.tx.ID } = (t₃, none))
    (hw : s.Wait t₃ = (t₄, we)) :
    (we = none →
      (Service.create s address code args).calls.countP Call.isUpdate = 1 ∧
      (∃ pre, (Service.create s address code args).calls =
        pre ++ [.Wait t₃, .UpdateTransaction t₄]) ∧
      (Service.create s address code args).err = (s.UpdateTransaction t₄).2) ∧
    (∀ e, we = some e →
      (Service.create s address code args).calls.countP Call.isUpdate = 0 ∧
      (Service.create s address code args).err = some e) := by
  constructor
  · intro h
    subst h
    simp only [Service.create, hb, ha, List.nil_append, hn, hs, hi, hw]
    refine ⟨by simp [Call.isUpdate, List.countP, List.countP.go],
      ⟨[.LatestBlockId, .UserAuthorizer address,
        .New id code args a a (if Contains code authAccountMarker then [a] else []),
        .Send t, .InsertTransaction { t₁ with TransactionId := Hex t₁.tx.ID }], ?_⟩, ?_⟩
    · simp only [List.cons_append, List.nil_append]
    · trivial
  · intro e h
    subst h
    simp only [Service.create, hb, ha, List.nil_append, hn, hs, hi, hw]
    simp [Call.isUpdate, List.countP, List.countP.go]

/-- Instance of amended C4: every step succeeds, so the update follows `Wait`. -/
theorem create_update_after_wait_witness :
    (Service.create okEnv someAddress [] []).calls.countP Call.isUpdate = 1 ∧
    (∃ pre, (Service.create okEnv someAddress [] []).calls =
      pre ++ [.Wait { builtTx with TransactionId := Hex builtTx.tx.ID },
              .UpdateTransaction { builtTx with TransactionId := Hex builtTx.tx.ID }]) ∧
    (Service.create okEnv someAddress [] []).err =
      (okEnv.UpdateTransaction { builtTx with TransactionId := Hex builtTx.tx.ID }).2 :=
  (create_update_after_wait okEnv someAddress [] [] (List.replicate 32 1) ⟨7⟩ builtTx builtTx
    { builtTx with TransactionId := Hex builtTx.tx.ID }
    { builtTx with TransactionId := Hex builtTx.tx.ID } none
    rfl rfl rfl rfl rfl rfl).1 rfl

/-- The marker test of `create` is substring containment. -/
theorem Contains_iff (s substr : GoString) :
    Contains s substr = true ↔ ∃ pre post, s = pre ++ substr ++ post := by
  have hp : ∀ (s substr : GoString), HasPrefix s substr = true ↔ ∃ post, s = substr ++ post := by
    intro s
    induction s with
    | nil =>
      intro substr
      cases substr with
      | nil => simp [HasPrefix]
      | cons p ps => simp [HasPrefix]
    | cons c cs ih =>
      intro substr
      cases substr with
      | nil => simp [HasPrefix]
      | cons p ps =>
        simp only [HasPrefix, Bool.and_eq_true, beq_iff_eq, ih, List.cons_append,
          List.cons.injEq]
        constructor
        · rintro ⟨rfl, post, rfl⟩
          exact ⟨post, rfl, rfl⟩
        · rintro ⟨post, rfl, rfl⟩
          exact ⟨rfl, post, rfl⟩
  induction s with
  | nil =>
    simp only [Contains, hp]
    constructor
    · rintro ⟨post, h⟩
      exact ⟨[], post, by simpa using h⟩
    · rintro ⟨pre, post, h⟩
      have h' := congrArg List.length h
      simp only [List.length_nil, List.length_append] at h'
      have h1 : substr = [] := List.length_eq_zero.mp (by omega)
      exact ⟨[], by simp [h1]⟩
  | cons c cs ih =>
    simp only [Contains, Bool.or_eq_true, hp, ih]
    constructor
    · rintro (⟨post, h⟩ | ⟨pre, post, h⟩)
      · exact ⟨[], post, by simpa using h⟩
      · exact ⟨c :: pre, post, by simp [h]⟩
    · rintro ⟨pre, post, h⟩
      cases pre with
      | nil => exact Or.inl ⟨post, by simpa using h⟩
      | cons p pre =>
        simp only [List.cons_append, List.cons.injEq] at h
        exact Or.inr ⟨pre, post, h.2⟩

/-- C7: when the block id and the authorizer `a` are resolved, the third call of `create` is
`New` with proposer `a`, payer `a`, and additional authorizers exactly `[a]` when `code`
contains the substring ": AuthAccount" (at one place or at several) and `[]` when it does
not. -/
theorem create_authorizers (s : Env) (address code : GoString) (args : List TransactionArg)
    (id : BlockId) (a : Authorizer)
    (hb : s.LatestBlockId = .ok id) (ha : s.UserAuthorizer address = .ok a) :
    ((∃ pre post, code = pre ++ ascii ": AuthAccount" ++ post) →
      (Service.create s address code args).calls.take 3 =
        [.LatestBlockId, .UserAuthorizer address, .New id code args a a [a]]) ∧
    ((¬ ∃ pre post, code = pre ++ ascii ": AuthAccount" ++ post) →
      (Service.create s address code args).calls.take 3 =
        [.LatestBlockId, .UserAuthorizer address, .New id code args a a []]) ∧
    (Service.create s address code args).calls.countP
      (fun c => match c with
        | .New _ _ _ _ _ _ => true
        | _ => false) = 1 := by
  have hm : authAccountMarker = ascii ": AuthAccount" := by decide
  have key : ∀ aa : List Authorizer,
      (if Contains code authAccountMarker then [a] else []) = aa →
      (Service.create s address code args).calls.take 3 =
        [.LatestBlockId, .UserAuthorizer address, .New id code args a a aa] ∧
      (Service.create s address code args).calls.countP
        (fun c => match c with
          | .New _ _ _ _ _ _ => true
          | _ => false) = 1 := by
    intro aa haa
    simp only [Service.create, hb, ha, List.nil_append, haa]
    cases s.New id code args a a aa with
    | error e => simp [List.countP, List.countP.go]
    | ok t =>
      rcases hs : s.Send t with ⟨t₁, _ | e⟩
      · rcases hi : s.InsertTransaction { t₁ with TransactionId := Hex t₁.tx.ID }
          with ⟨t₃, _ | e⟩
        · rcases hw : s.Wait t₃ with ⟨t₄, _ | e⟩
          · simp [hs, hi, hw, List.countP, List.countP.go]
          · simp [hs, hi, hw, List.countP, List.countP.go]
        · simp [hs, hi, List.countP, List.countP.go]
      · simp [hs, List.countP, List.countP.go]
  refine ⟨fun h => ?_, fun h => ?_, ?_⟩
  · rw [← hm, ← Contains_iff] at h
    exact (key [a] (by simp [h])).1
  · rw [← hm, ← Contains_iff] at h
    exact (key [] (by simp [h])).1
  · exact (key _ rfl).2

/-- Instance of C7: the marker occurs twice, the authorizer once. -/
theorem create_authorizers_witness :
    (Service.create okEnv someAddress
        (ascii "a: AuthAccount, b: AuthAccount") []).calls.take 3 =
      [.LatestBlockId, .UserAuthorizer someAddress,
       .New (List.replicate 32 1) (ascii "a: AuthAccount, b: AuthAccount") [] ⟨7⟩ ⟨7⟩ [⟨7⟩]] :=
  (create_authorizers okEnv someAddress (ascii "a: AuthAccount, b: AuthAccount") []
    (List.replicate 32 1) ⟨7⟩ rfl rfl).1 ⟨ascii "a", ascii ", b: AuthAccount", by decide⟩

/-! ### `CreateSync`, `CreateAsync`, `List`, `Details` -/

/-- C5: for an address that the validator rejects with `e`, each of `CreateSync`,
`CreateAsync`, `List` and `Details` returns `e` and makes no call at all (no `AddJob`, hence no
run of `create`, and no store call), in `Details` whatever the transaction id is; and for an
accepted address with a transaction id that `ValidateTransactionId` rejects, `Details` returns
that error before any store lookup. -/
theorem invalid_input_no_side_effect (s : Env) (code : GoString) (args : List TransactionArg)
    (address transactionId : GoString) (limit offset : Int) :
    (∀ e, s.ValidateAddress address s.ChainId = some e →
      Service.CreateSync s code args address = ⟨none, some e, []⟩ ∧
      Service.CreateAsync s code args address = ⟨none, some e, [], none⟩ ∧
      Service.List s address limit offset = ⟨[], some e, []⟩ ∧
      Service.Details s address transactionId = ⟨EmptyTransaction, some e, []⟩) ∧
    (s.ValidateAddress address s.ChainId = none →
      ∀ e, ValidateTransactionId transactionId = some e →
        Service.Details s address transactionId = ⟨EmptyTransaction, some e, []⟩) := by
  constructor
  · intro e h
    simp [Service.CreateSync, Service.CreateAsync, Service.List, Service.Details, h]
  · intro h e he
    simp [Service.Details, h, he]

/-- Instance of C5: the empty address is rejected; an accepted address with a malformed id. -/
theorem invalid_input_no_side_effect_witness :
    (Service.CreateSync okEnv [] [] [] = ⟨none, some (.other "not a valid address"), []⟩ ∧
      Service.CreateAsync okEnv [] [] [] =
        ⟨none, some (.other "not a valid address"), [], none⟩ ∧
      Service.List okEnv [] 10 0 = ⟨[], some (.other "not a valid address"), []⟩ ∧
      Service.Details okEnv [] (ascii "xyz") =
        ⟨EmptyTransaction, some (.other "not a valid address"), []⟩) ∧
    Service.Details okEnv someAddress (ascii "xyz") =
      ⟨EmptyTransaction, some invalidErr, []⟩ :=
  ⟨(invalid_input_no_side_effect okEnv [] [] [] (ascii "xyz") 10 0).1 _ rfl,
   (invalid_input_no_side_effect okEnv [] [] someAddress (ascii "xyz") 10 0).2 rfl _
     (by decide)⟩

/-- C6: for a valid address, when `AddJob` fails with a `JobQueueFull` error, `CreateSync` and
`CreateAsync` return a nil result and the `RequestError` with status 503 and message
"max capacity reached, try again later"; when `AddJob` fails with another error, that error is
returned unchanged; in both cases `AddJob` is the only call made (the submitted work is not run
and not waited for).  When `AddJob` accepts the work, the error of `CreateSync` is the error of
`create`, unchanged, and `CreateAsync` returns no error: the 503 conversion is never applied to
an error of the submitted work. -/
theorem capacity_error (s : Env) (code : GoString) (args : List TransactionArg)
    (address : GoString) (hv : s.ValidateAddress address s.ChainId = none) :
    (∀ j, s.AddJob = .error j → j.isJobQueueFull = true →
      Service.CreateSync s code args address =
        ⟨none, some (.requestError 503 "max capacity reached, try again later"), [.AddJob]⟩ ∧
      Service.CreateAsync s code args address =
        ⟨none, some (.requestError 503 "max capacity reached, try again later"),
          [.AddJob], none⟩) ∧
    (∀ j, s.AddJob = .error j → j.isJobQueueFull = false →
      Service.CreateSync s code args address = ⟨none, some j, [.AddJob]⟩ ∧
      Service.CreateAsync s code args address = ⟨none, some j, [.AddJob], none⟩) ∧
    (∀ job, s.AddJob = .ok job →
      (Service.CreateSync s code args address).err = (Service.create s address code args).err ∧
      (Service.CreateSync s code args address).result =
        some (Service.create s address code args).t ∧
      Service.CreateAsync s code args address =
        ⟨some job, none, [.AddJob], some (Service.create s address code args)⟩) := by
  refine ⟨fun j hj hq => ?_, fun j hj hq => ?_, fun job hj => ?_⟩
  · simp [Service.CreateSync, Service.CreateAsync, hv, hj, hq, capacityErr,
      StatusServiceUnavailable]
  · simp [Service.CreateSync, Service.CreateAsync, hv, hj, hq]
  · simp [Service.CreateSync, Service.CreateAsync, hv, hj]

/-- Instance of C6: the queue is full. -/
theorem capacity_error_witness :
    Service.CreateSync queueFullEnv [] [] someAddress =
      ⟨none, some (.requestError 503 "max capacity reached, try again later"), [.AddJob]⟩ ∧
    Service.CreateAsync queueFullEnv [] [] someAddress =
      ⟨none, some (.requestError 503 "max capacity reached, try again later"),
        [.AddJob], none⟩ :=
  (capacity_error queueFullEnv [] [] someAddress rfl).1 _ rfl rfl

/-- C8: for a valid address and a valid transaction id, `Details` makes the one store lookup
and returns the store's result unchanged when the lookup succeeds; returns the `RequestError`
with status 404 and message "transaction not found" when the store's error has the message
"record not found"; and returns any other store error unchanged; so the 404 error is returned only for a store error
with that message (or when the store itself returned this very 404 error). -/
theorem details_lookup (s : Env) (address transactionId : GoString)
    (hv : s.ValidateAddress address s.ChainId = none)
    (hid : ValidateTransactionId transactionId = none) :
    (Service.Details s address transactionId).calls = [.Transaction address transactionId] ∧
    (Service.Details s address transactionId).result =
      (s.Transaction address transactionId).1 ∧
    ((s.Transaction address transactionId).2 = none →
      (Service.Details s address transactionId).err = none) ∧
    (∀ e, (s.Transaction address transactionId).2 = some e → e.Error = "record not found" →
      (Service.Details s address transactionId).err =
        some (.requestError 404 "transaction not found")) ∧
    (∀ e, (s.Transaction address transactionId).2 = some e → e.Error ≠ "record not found" →
      (Service.Details s address transactionId).err = some e) ∧
    ((Service.Details s address transactionId).err =
        some (.requestError 404 "transaction not found") ↔
      ∃ e, (s.Transaction address transactionId).2 = some e ∧
        (e.Error = "record not found" ∨ e = .requestError 404 "transaction not found")) := by
  simp only [Service.Details, hv, hid]
  cases h : (s.Transaction address transactionId).2 with
  | none => simp
  | some e =>
    by_cases hm : e.Error = "record not found"
    · simp [hm, notFoundErr, StatusNotFound]
    · simp [hm]

/-- Instance of C8: the store reports "record not found". -/
theorem details_lookup_witness :
    (Service.Details notFoundEnv someAddress (List.replicate 64 97)).err =
      some (.requestError 404 "transaction not found") :=
  (details_lookup notFoundEnv someAddress (List.replicate 64 97) rfl (by decide)).2.2.2.1
    (.other "record not found") rfl (by decide)

/-! ### `GormStore.LockedStatus` -/

/-- C9: `LockedStatus` returns `nil` exactly when the lock/fetch-or-create step, `fn` and
`Save` all succeed, and then the transaction commits with the table holding the status as `fn`
left it.  Otherwise the error of the first failing step is returned, the later steps are not
executed (`fn` is not invoked when the lock step fails, `Save` is not called when `fn` fails),
and the transaction rolls back: the table is as before the call.  The status handed to `fn` is
the stored row, or the zero status when there is none. -/
theorem LockedStatus_atomic (g : Gorm) (db : StatusTable)
    (fn : ListenerStatus → ListenerStatus × Option GoError) :
    ((GormStore.LockedStatus g db fn).err = none ↔
      g.lock = none ∧ (fn (db.getD ⟨0⟩)).2 = none ∧ g.save (fn (db.getD ⟨0⟩)).1 = none) ∧
    (g.lock = none → (fn (db.getD ⟨0⟩)).2 = none → g.save (fn (db.getD ⟨0⟩)).1 = none →
      GormStore.LockedStatus g db fn =
        ⟨some (fn (db.getD ⟨0⟩)).1, none,
          [.FirstOrCreate, .fn (db.getD ⟨0⟩), .Save (fn (db.getD ⟨0⟩)).1, .Commit]⟩) ∧
    (∀ e, g.lock = some e →
      GormStore.LockedStatus g db fn = ⟨db, some e, [.FirstOrCreate, .Rollback]⟩) ∧
    (∀ e, g.lock = none → (fn (db.getD ⟨0⟩)).2 = some e →
      GormStore.LockedStatus g db fn =
        ⟨db, some e, [.FirstOrCreate, .fn (db.getD ⟨0⟩), .Rollback]⟩) ∧
    (∀ e, g.lock = none → (fn (db.getD ⟨0⟩)).2 = none →
      g.save (fn (db.getD ⟨0⟩)).1 = some e →
      GormStore.LockedStatus g db fn =
        ⟨db, some e,
          [.FirstOrCreate, .fn (db.getD ⟨0⟩), .Save (fn (db.getD ⟨0⟩)).1, .Rollback]⟩) := by
  cases hl : g.lock with
  | some e => simp [GormStore.LockedStatus, gormTransaction, FirstOrCreate, hl]
  | none =>
    cases db with
    | none =>
      rcases hf : fn ⟨0⟩ with ⟨st, _ | e⟩
      · cases hsv : g.save st with
        | none =>
          simp [GormStore.LockedStatus, gormTransaction, FirstOrCreate, Save, hl, hf, hsv]
        | some e =>
          simp [GormStore.LockedStatus, gormTransaction, FirstOrCreate, Save, hl, hf, hsv]
      · simp [GormStore.LockedStatus, gormTransaction, FirstOrCreate, hl, hf]
    | some row =>
      rcases hf : fn row with ⟨st, _ | e⟩
      · cases hsv : g.save st with
        | none =>
          simp [GormStore.LockedStatus, gormTransaction, FirstOrCreate, Save, hl, hf, hsv]
        | some e =>
          simp [GormStore.LockedStatus, gormTransaction, FirstOrCreate, Save, hl, hf, hsv]
      · simp [GormStore.LockedStatus, gormTransaction, FirstOrCreate, hl, hf]

/-- Instance of C9: a committed increment of the marker, and a failed lock. -/
theorem LockedStatus_atomic_witness :
    GormStore.LockedStatus ⟨none, fun _ => none⟩ (some ⟨41⟩) (fun st => (⟨st.LatestHeight + 1⟩, none)) =
      ⟨some ⟨42⟩, none, [.FirstOrCreate, .fn ⟨41⟩, .Save ⟨42⟩, .Commit]⟩ ∧
    GormStore.LockedStatus ⟨some (.other "could not obtain lock"), fun _ => none⟩ (some ⟨41⟩)
        (fun st => (⟨st.LatestHeight + 1⟩, none)) =
      ⟨some ⟨41⟩, some (.other "could not obtain lock"), [.FirstOrCreate, .Rollback]⟩ :=
  ⟨(LockedStatus_atomic ⟨none, fun _ => none⟩ (some ⟨41⟩)
      (fun st => (⟨st.LatestHeight + 1⟩, none))).2.1 rfl rfl rfl,
   (LockedStatus_atomic ⟨some (.other "could not obtain lock"), fun _ => none⟩ (some ⟨41⟩)
      (fun st => (⟨st.LatestHeight + 1⟩, none))).2.2.1 _ rfl⟩

/-! ### `TokenFromEvent` -/

/-- The number of segments is one more than the number of separators. -/
theorem Split_length (s : GoString) (sep : Nat) :
    (Split s sep).length = s.count sep + 1 := by
  induction s with
  | nil => simp [Split]
  | cons c cs ih =>
    by_cases h : c = sep
    · subst h
      simp [Split, ih]
    · have hc : List.count sep (c :: cs) = List.count sep cs := by
        rw [List.count_cons]
        simp [h]
      rw [hc, ← ih]
      simp only [Split, h, ↓reduceIte]
      cases hs : Split cs sep with
      | nil => rw [hs] at ih; simp at ih
      | cons seg segs => simp

/-- C10: when the event type splits on "." into at least three segments, `TokenFromEvent`
makes no out-of-range access: it returns the validator's error with the empty `Token` when the
second segment is rejected, and the `Token` with `Name` the third segment and `Address` the
validated second segment, with no error, otherwise.  The two accesses are unguarded: `TokenFromEvent` is free of
out-of-range accesses for every outcome of the validator exactly when there are at least three
segments; with fewer than two segments `ss[1]` panics, and with exactly two `ss[2]` panics as
soon as the validator accepts the second segment (a rejected second segment returns the
validator's error before `ss[2]` is reached). -/
theorem TokenFromEvent_segments (e : Event) (chainId : ChainID) :
    (3 ≤ (Split e.Type_ 46).length →
      ∀ validate : GoString → ChainID → Except GoError GoString,
        ∃ s₁ s₂, (Split e.Type_ 46)[1]? = some s₁ ∧ (Split e.Type_ 46)[2]? = some s₂ ∧
          (∀ err, validate s₁ chainId = .error err →
            TokenFromEvent validate e chainId = .ok (⟨[], []⟩, some err)) ∧
          (∀ a, validate s₁ chainId = .ok a →
            TokenFromEvent validate e chainId = .ok (⟨s₂, a⟩, none))) ∧
    ((∀ validate : GoString → ChainID → Except GoError GoString,
        ∃ r, TokenFromEvent validate e chainId = .ok r) ↔
      3 ≤ (Split e.Type_ 46).length) ∧
    ((Split e.Type_ 46).length < 2 →
      ∀ validate : GoString → ChainID → Except GoError GoString,
        TokenFromEvent validate e chainId =
          .error (.indexOutOfRange 1 (Split e.Type_ 46).length)) ∧
    ((Split e.Type_ 46).length = 2 →
      ∀ validate : GoString → ChainID → Except GoError GoString,
        ∃ s₁, (Split e.Type_ 46)[1]? = some s₁ ∧
          (∀ a, validate s₁ chainId = .ok a →
            TokenFromEvent validate e chainId = .error (.indexOutOfRange 2 2)) ∧
          (∀ err, validate s₁ chainId = .error err →
            TokenFromEvent validate e chainId = .ok (⟨[], []⟩, some err))) := by
  have h3 : 3 ≤ (Split e.Type_ 46).length →
      ∀ validate : GoString → ChainID → Except GoError GoString,
        ∃ s₁ s₂, (Split e.Type_ 46)[1]? = some s₁ ∧ (Split e.Type_ 46)[2]? = some s₂ ∧
          (∀ err, validate s₁ chainId = .error err →
            TokenFromEvent validate e chainId = .ok (⟨[], []⟩, some err)) ∧
          (∀ a, validate s₁ chainId = .ok a →
            TokenFromEvent validate e chainId = .ok (⟨s₂, a⟩, none)) := by
    intro hlen validate
    match hss : Split e.Type_ 46, hlen with
    | s₀ :: s₁ :: s₂ :: rest, _ =>
      refine ⟨s₁, s₂, by simp, by simp, ?_, ?_⟩
      · intro err hv
        simp [TokenFromEvent, hss, hv]
      · intro a hv
        simp [TokenFromEvent, hss, hv]
  have h1 : (Split e.Type_ 46).length < 2 →
      ∀ validate : GoString → ChainID → Except GoError GoString,
        TokenFromEvent validate e chainId =
          .error (.indexOutOfRange 1 (Split e.Type_ 46).length) := by
    intro hlen validate
    match hss : Split e.Type_ 46, hlen with
    | [], _ => simp [TokenFromEvent, hss]
    | [s₀], _ => simp [TokenFromEvent, hss]
  have h2 : (Split e.Type_ 46).length = 2 →
      ∀ validate : GoString → ChainID → Except GoError GoString,
        ∃ s₁, (Split e.Type_ 46)[1]? = some s₁ ∧
          (∀ a, validate s₁ chainId = .ok a →
            TokenFromEvent validate e chainId = .error (.indexOutOfRange 2 2)) ∧
          (∀ err, validate s₁ chainId = .error err →
            TokenFromEvent validate e chainId = .ok (⟨[], []⟩, some err)) := by
    intro hlen validate
    match hss : Split e.Type_ 46, hlen with
    | [s₀, s₁], _ =>
      refine ⟨s₁, by simp, ?_, ?_⟩
      · intro a hv
        simp [TokenFromEvent, hss, hv]
      · intro err hv
        simp [TokenFromEvent, hss, hv]
  refine ⟨h3, ⟨fun h => ?_, fun hlen validate => ?_⟩, h1, h2⟩
  · by_contra hlt
    have hlt' : (Split e.Type_ 46).length < 3 := by omega
    obtain ⟨r, hr⟩ := h (fun a _ => .ok a)
    by_cases h2' : (Split e.Type_ 46).length = 2
    · obtain ⟨s₁, _, hp, _⟩ := h2 h2' (fun a _ => .ok a)
      rw [hp s₁ rfl] at hr
      cases hr
    · rw [h1 (by omega) (fun a _ => .ok a)] at hr
      cases hr
  · obtain ⟨s₁, s₂, _, _, he, ha⟩ := h3 hlen validate
    cases hv : validate s₁ chainId with
    | error err => exact ⟨_, he err hv⟩
    | ok a => exact ⟨_, ha a hv⟩

/-- Instance of C10: the documented example event type. -/
theorem TokenFromEvent_segments_witness :
    3 ≤ (Split (ascii "A.0ae53cb6e3f42a79.FlowToken.TokensDeposited") 46).length ∧
    ∃ s₁ s₂,
      (Split (ascii "A.0ae53cb6e3f42a79.FlowToken.TokensDeposited") 46)[1]? = some s₁ ∧
      (Split (ascii "A.0ae53cb6e3f42a79.FlowToken.TokensDeposited") 46)[2]? = some s₂ ∧
      (∀ err, (fun a _ => Except.ok a : GoString → ChainID → Except GoError GoString) s₁
          (ascii "flow-emulator") = .error err →
        TokenFromEvent (fun a _ => .ok a)
          ⟨ascii "A.0ae53cb6e3f42a79.FlowToken.TokensDeposited"⟩ (ascii "flow-emulator") =
          .ok (⟨[], []⟩, some err)) ∧
      (∀ a, (fun a _ => Except.ok a : GoString → ChainID → Except GoError GoString) s₁
          (ascii "flow-emulator") = .ok a →
        TokenFromEvent (fun a _ => .ok a)
          ⟨ascii "A.0ae53cb6e3f42a79.FlowToken.TokensDeposited"⟩ (ascii "flow-emulator") =
          .ok (⟨s₂, a⟩, none)) :=
  ⟨by decide,
   (TokenFromEvent_segments ⟨ascii "A.0ae53cb6e3f42a79.FlowToken.TokensDeposited"⟩
      (ascii "flow-emulator")).1 (by decide) (fun a _ => .ok a)⟩

end FlowWallet
